/-
Verification of the extractive-QA postprocessing core of an NLP model
evaluation library (`aiai_eval`): the feature builder's offset rewriting
(`prepare_test_examples`), the span resolver (`postprocess_predictions`),
label extraction (`postprocess_labels`), label canonicalization
(`_create_numerical_labels`), the trained-for-task structural probe and the
framework-capability failure path.

The Python source is shallowly embedded: lists stay lists, numpy float
logits become rationals (the control flow only adds and compares scores),
`for` loops over fallible bodies become explicit recursion in the `Except`
monad (Python exceptions), and the relevant quirks of Python semantics
(`==` between a pair and an int, negative-index slicing, `list.index`,
`len` on non-sequences) are modelled by dedicated helper functions.
-/
import Mathlib

namespace AiaiEval

/-! ## Python-semantics helpers -/

/-- Python `==` between an offset-mapping entry (a two-element list such as
`[-1, -1]`) and an integer scalar.  In Python a list (or tuple) never
compares equal to an int, so this is constantly `false` — faithfully
modelling the expression `offset_mapping[start_index] == -1` in the source,
whose operands have different types. -/
def pyPairEqInt (_o : Int × Int) (_n : Int) : Bool := false

/-- Python string slice `s[a:b]` (step 1) with possibly negative indices:
a negative index counts from the end of the string, and both endpoints are
clamped into `[0, len(s)]`. -/
def pySlice (s : String) (a b : Int) : String :=
  let n : Int := s.length
  let norm : Int → Int := fun i => if i < 0 then max 0 (n + i) else min i n
  let a2 := (norm a).toNat
  let b2 := (norm b).toNat
  (((s.toList).drop a2).take (b2 - a2)).asString

/-- Python `str.upper()` (on the ASCII range used by the label tables). -/
def pyUpper (s : String) : String := (s.toList.map Char.toUpper).asString

/-! ## Data model (spec §3) -/

/-- A QA `Example` record: `id`, `question`, `context` and gold `answers`
(parallel lists of answer strings and character start positions). -/
structure QAExample where
  id : String
  question : String
  context : String
  answersText : List String
  answersStart : List Int
  deriving Repr, DecidableEq, Inhabited

/-- A `Feature` (tokenized window) as stored in the prepared dataset: the
owning example's `id`, the window's token ids, and its offset mapping where
non-context positions carry the SENTINEL `(-1, -1)`. -/
structure QAFeature where
  id : String
  input_ids : List Int
  offset_mapping : List (Int × Int)
  deriving Repr, DecidableEq, Inhabited

/-- A candidate answer span as recorded by the resolver:
`dict(score=score, text=text)` in the source. -/
structure Candidate where
  score : ℚ
  text : String
  deriving Repr, DecidableEq, Inhabited

/-- A postprocessed QA prediction. -/
structure Prediction where
  id : String
  prediction_text : String
  no_answer_probability : ℚ
  deriving Repr, DecidableEq, Inhabited

/-- A postprocessed QA label. -/
structure QALabel where
  id : String
  answersText : List String
  answersStart : List Int
  deriving Repr, DecidableEq, Inhabited

/-- Python exceptions that `postprocess_predictions` can raise: `KeyError`
from `id_to_index[id]`, `ValueError` from `input_ids.index(cls_token_index)`
and `IndexError` from out-of-bounds numpy row access. -/
inductive QAError where
  | keyError
  | valueError
  | indexError
  deriving Repr, DecidableEq

/-- Decidable equality of `Except` values, for evaluating the embedded
functions on concrete inputs. -/
instance {ε α : Type} [DecidableEq ε] [DecidableEq α] : DecidableEq (Except ε α) :=
  fun a b =>
    match a, b with
    | .ok x, .ok y =>
        if h : x = y then .isTrue (by rw [h]) else .isFalse (by simp [h])
    | .error x, .error y =>
        if h : x = y then .isTrue (by rw [h]) else .isFalse (by simp [h])
    | .ok _, .error _ => .isFalse (by simp)
    | .error _, .ok _ => .isFalse (by simp)

/-! ## Monadic loop helpers (Python `for` loops over fallible bodies) -/

/-- Left-to-right effectful map in `Except`, stopping at the first raised
exception, as a Python list comprehension / accumulating loop does. -/
def mapExcept {α β ε : Type} (f : α → Except ε β) : List α → Except ε (List β)
  | [] => .ok []
  | a :: l => do
    let b ← f a
    let r ← mapExcept f l
    .ok (b :: r)

/-- Left fold in `Except`, stopping at the first raised exception. -/
def foldExcept {σ α ε : Type} (f : σ → α → Except ε σ) : σ → List α → Except ε σ
  | s, [] => .ok s
  | s, a :: l => do
    let s2 ← f s a
    foldExcept f s2 l

/-! ## Span resolver (`postprocess_predictions`, source lines 158–287) -/

/-- Row access into a stacked logit matrix (`all_start_logits[feature_index]`);
out of bounds raises `IndexError`. -/
def getRow (rows : List (List ℚ)) (i : Nat) : Except QAError (List ℚ) :=
  if h : i < rows.length then .ok rows[i] else .error .indexError

/-- Scalar access into a logit row (`start_logits[cls_index]`); out of
bounds raises `IndexError`. -/
def getEntry (xs : List ℚ) (i : Nat) : Except QAError ℚ :=
  if h : i < xs.length then .ok xs[i] else .error .indexError

/-- Python `list.index(x)`: the first position of `x`, raising `ValueError`
when `x` is absent (`features["input_ids"].index(cls_token_index)`). -/
def pyListIndex (xs : List Int) (x : Int) : Except QAError Nat :=
  match xs.findIdx? (fun y => y == x) with
  | some i => .ok i
  | none => .error .valueError

/-- Insert index `i` into a list of indices sorted ascending by
`(logit value, index)`. -/
def argInsert (xs : List ℚ) (i : Nat) : List Nat → List Nat
  | [] => [i]
  | j :: js =>
      if xs.getD i 0 < xs.getD j 0 ∨ (xs.getD i 0 = xs.getD j 0 ∧ i ≤ j)
      then i :: j :: js
      else j :: argInsert xs i js

/-- Indices `0, …, n-1` sorted by ascending logit value (`np.argsort`;
numpy's default sort leaves the tie order unspecified, so the development
fixes ties to ascending index order, on which no verified property
depends). -/
def argsort (xs : List ℚ) : List Nat :=
  (List.range xs.length).foldr (argInsert xs) []

/-- The slice `np.argsort(logits)[-1 : -n_best_size - 1 : -1].tolist()`: the indices
of the `n` largest values, in descending value order. -/
def topIndexes (xs : List ℚ) (n : Nat) : List Nat :=
  ((argsort xs).reverse).take n

/-- The resolver's first rejection test for a `(start, end)` pair: an index
out of bounds for the offset mapping, or an offset entry "equal to `-1`"
(see `pyPairEqInt`: in the source this comparison is between a pair and an
int and never holds). -/
def outOfScope (om : List (Int × Int)) (s e : Nat) : Bool :=
  decide (om.length ≤ s) || decide (om.length ≤ e) ||
    pyPairEqInt (om.getD s (-1, -1)) (-1) || pyPairEqInt (om.getD e (-1, -1)) (-1)

/-- The resolver's second rejection test: a negative-length span
(`end_index < start_index`) or one longer than `max_answer_length = 30`
tokens (`end_index > max_answer_length + start_index - 1`). -/
def badLength (s e : Nat) : Bool :=
  decide (e < s) || decide (30 + s - 1 < e)

/-- The candidates recorded for one start index against all chosen end
indexes: pairs surviving both rejection tests yield
`dict(score = start_logits[start] + end_logits[end],
text = context[start_char:end_char])`. -/
def candidatesForStart (sl el : List ℚ) (om : List (Int × Int)) (context : String)
    (s : Nat) (endIdxs : List Nat) : List Candidate :=
  endIdxs.filterMap (fun e =>
    if outOfScope om s e then none
    else if badLength s e then none
    else some { score := sl.getD s 0 + el.getD e 0,
                text := pySlice context (om.getD s (-1, -1)).1 (om.getD e (-1, -1)).2 })

/-- The double loop over the chosen top start and end indexes. -/
def candidatesFor (sl el : List ℚ) (om : List (Int × Int)) (context : String)
    (startIdxs endIdxs : List Nat) : List Candidate :=
  startIdxs.flatMap (fun s => candidatesForStart sl el om context s endIdxs)

/-- A feature's null score `start_logits[cls_index] + end_logits[cls_index]`,
where `cls_index` is the first position of the classifier token id in the
feature's `input_ids` (`ValueError` when absent). -/
def nullScore (allStart allEnd : List (List ℚ)) (clsTokenIndex : Int)
    (features : List QAFeature) (fi : Nat) : Except QAError ℚ := do
  let sl ← getRow allStart fi
  let el ← getRow allEnd fi
  let f := features.getD fi default
  let ci ← pyListIndex f.input_ids clsTokenIndex
  let s ← getEntry sl ci
  let e ← getEntry el ci
  .ok (s + e)

/-- One iteration of the resolver's inner loop over an example's features:
updates the running null score (to the larger value) and appends the
feature's surviving candidates (`n_best_size = 20`). -/
def processFeature (allStart allEnd : List (List ℚ)) (clsTokenIndex : Int)
    (features : List QAFeature) (context : String)
    (acc : ℚ × List Candidate) (fi : Nat) : Except QAError (ℚ × List Candidate) := do
  let sl ← getRow allStart fi
  let el ← getRow allEnd fi
  let f := features.getD fi default
  let om := f.offset_mapping
  let ns ← nullScore allStart allEnd clsTokenIndex features fi
  let m := if acc.1 < ns then ns else acc.1
  let startIdxs := topIndexes sl 20
  let endIdxs := topIndexes el 20
  .ok (m, acc.2 ++ candidatesFor sl el om context startIdxs endIdxs)

/-- The state after looping over all of an example's features:
`(min_null_score, valid_answers)` with initial state `(0.0, [])`. -/
def exampleState (allStart allEnd : List (List ℚ)) (clsTokenIndex : Int)
    (features : List QAFeature) (context : String) (featureIndices : List Nat) :
    Except QAError (ℚ × List Candidate) :=
  foldExcept (processFeature allStart allEnd clsTokenIndex features context)
    (0, []) featureIndices

/-- The selection `sorted(valid_answers, key=lambda x: x["score"], reverse=True)[0]` when
candidates exist (the stable sort keeps the first-recorded of equally scored
candidates in front), and the fallback `{"text": "", "score": 0.0}` when
none survived. -/
def bestCandidate : List Candidate → Candidate
  | [] => { score := 0, text := "" }
  | c :: cs => (c :: cs).foldl (fun b x => if b.score < x.score then x else b) c

/-- The resolver's per-example step: fold over the example's features, pick
the best candidate, and emit its text when its score exceeds the running
null score, the empty string otherwise; `no_answer_probability` is always
`0.0`. -/
def processExample (allStart allEnd : List (List ℚ)) (clsTokenIndex : Int)
    (features : List QAFeature) (featureIndices : List Nat) (ex : QAExample) :
    Except QAError Prediction := do
  let st ← exampleState allStart allEnd clsTokenIndex features ex.context featureIndices
  let best := bestCandidate st.2
  let text := if st.1 < best.score then best.text else ""
  .ok { id := ex.id, prediction_text := text, no_answer_probability := 0 }

/-- The map in `id_to_index = dict((k, i) for i, k in enumerate(dataset))`: the value
stored for an id is the position of its last occurrence. -/
def idToIndex (ids : List String) (id : String) : Option Nat :=
  ((List.range ids.length).filter (fun i => ids.getD i "" == id)).getLast?

/-- The owning example index of each feature, in feature order
(`id_to_index[feature["id"]]`, raising `KeyError` for an unknown id). -/
def featureAssignments (ids : List String) (features : List QAFeature) :
    Except QAError (List Nat) :=
  mapExcept (fun f =>
    match idToIndex ids f.id with
    | some e => .ok e
    | none => .error .keyError) features

/-- The list `features_per_example[example_index]`: the feature indices assigned to
one example, in increasing feature order. -/
def indicesFor (assignments : List Nat) (e : Nat) : List Nat :=
  (List.range assignments.length).filter (fun i => assignments.getD i 0 == e)

/-- The span resolver `postprocess_predictions(predictions, dataset,
prepared_dataset, cls_token_index)`: split the per-feature `(seqLen × 2)`
logit arrays into start and end rows, group features by owning example, and
emit one prediction per dataset example in dataset order. -/
def postprocess_predictions (predictions : List (List (ℚ × ℚ)))
    (dataset : List QAExample) (prepared : List QAFeature) (clsTokenIndex : Int) :
    Except QAError (List Prediction) := do
  let allStart := predictions.map (fun row => row.map Prod.fst)
  let allEnd := predictions.map (fun row => row.map Prod.snd)
  let assignments ← featureAssignments (dataset.map (fun ex => ex.id)) prepared
  mapExcept (fun e =>
      processExample allStart allEnd clsTokenIndex prepared
        (indicesFor assignments e) (dataset.getD e default))
    (List.range dataset.length)

/-! ## Label extraction (`postprocess_labels`, source lines 290–317) -/

/-- Label extraction `postprocess_labels(dataset)`: one label per example, with the `id` and
gold `answers` copied unchanged. -/
def postprocess_labels (dataset : List QAExample) : List QALabel :=
  dataset.map (fun ex =>
    { id := ex.id, answersText := ex.answersText, answersStart := ex.answersStart })

/-! ## Feature builder (`prepare_test_examples`, source lines 85–155)

The tokenizer itself is an external collaborator (spec §6); the embedded
part is the per-window loop over its output (overflow-to-sample map,
per-window sequence ids and offset mapping): attaching the owning example's
id and rewriting non-context offsets to the SENTINEL `(-1, -1)`. -/

/-- The tokenizer output consumed by the feature builder loop: per window,
the token ids, the raw character offset mapping, and the sequence ids
(`none` for special and padding tokens, `some 0` for question tokens,
`some 1` for context tokens), plus the window-to-example overflow map. -/
structure TokenizedBatch where
  input_ids : List (List Int)
  offset_mapping : List (List (Int × Int))
  sequence_ids : List (List (Option Nat))
  overflow_to_sample_mapping : List Nat
  deriving Repr, Inhabited

/-- The offset-mapping rewrite for one window:
`[(o if sequence_ids[k] == context_index else (-1, -1)) for k, o in
enumerate(offset_mapping[i])]` with `context_index = 1` (a `None` sequence
id compares unequal to `1` in Python). -/
def rewriteOffsets (seqIds : List (Option Nat)) (om : List (Int × Int)) :
    List (Int × Int) :=
  (List.range om.length).map (fun k =>
    if seqIds.getD k none == some 1 then om.getD k (-1, -1) else (-1, -1))

/-- The feature-building loop of `prepare_test_examples`: for each emitted
window, look up the owning example's id through the overflow map and
rewrite the window's offset mapping. -/
def prepare_test_examples (exampleIds : List String) (tok : TokenizedBatch) :
    List QAFeature :=
  (List.range tok.input_ids.length).map (fun i =>
    { id := exampleIds.getD (tok.overflow_to_sample_mapping.getD i 0) "",
      input_ids := tok.input_ids.getD i [],
      offset_mapping :=
        rewriteOffsets (tok.sequence_ids.getD i []) (tok.offset_mapping.getD i []) })

/-! ## Label canonicalization (`_create_numerical_labels`,
`sequence_classification.py` lines 73–81) -/

/-- The `MissingLabel` exception payload: the label reported missing and
the known label-to-id mapping. -/
structure MissingLabelErr where
  label : String
  label2id : List (String × Nat)
  deriving Repr, DecidableEq

/-- Dictionary lookup `label2id[key]` over the label mapping. -/
def lookup2id (label2id : List (String × Nat)) (key : String) : Option Nat :=
  (label2id.find? (fun p => p.1 == key)).map (fun p => p.2)

/-- Left-to-right map over an `Option`-valued function, `none` as soon as
one element fails (the list comprehension's first `KeyError`). -/
def mapOption {α β : Type} (f : α → Option β) : List α → Option (List β)
  | [] => some []
  | a :: l => do
    let b ← f a
    let r ← mapOption f l
    some (b :: r)

/-- Canonicalization `_create_numerical_labels`: map each raw label to
`label2id[lbl.upper()]`; on the first failing lookup, raise `MissingLabel`
with `label = [lbl.upper() for lbl in labels if lbl.upper() not in
label2id][0]` (note: the uppercased raw value) and the mapping itself. -/
def createNumericalLabels (labels : List String) (label2id : List (String × Nat)) :
    Except MissingLabelErr (List Nat) :=
  match mapOption (fun lbl => lookup2id label2id (pyUpper lbl)) labels with
  | some r => .ok r
  | none =>
      .error
        { label :=
            ((labels.filter (fun lbl => (lookup2id label2id (pyUpper lbl)).isNone)).map
              pyUpper).headD "",
          label2id := label2id }

/-! ## Framework-capability dispatch (`_spacy_preprocess_fn`, source lines
74–77, and the orchestrating pipeline) -/

/-- The `FrameworkCannotHandleTask` exception payload: the framework and
task names. -/
structure FrameworkCannotHandleTaskErr where
  framework : String
  task : String
  deriving Repr, DecidableEq

/-- The method `QuestionAnswering._spacy_preprocess_fn`: unconditionally raises
`FrameworkCannotHandleTask(framework="spaCy", task=task_config.pretty_name)`. -/
def spacyPreprocessFn (taskPrettyName : String) (_examples : List QAExample) :
    Except FrameworkCannotHandleTaskErr (List QAFeature) :=
  .error { framework := "spaCy", task := taskPrettyName }

/-- Modelled from the spec: the Task Orchestrator pipeline of `task.py`
(the orchestrator base class is not among the provided sources).  Per spec
§4.6 and §7 the preprocess stage runs first, exactly once (no retry), and a
preprocessing failure aborts the run before the inference stage; the second
component counts inference calls. -/
def runPipeline {α β γ ε : Type} (preprocess : α → Except ε β) (infer : β → γ)
    (examples : α) : Except ε γ × Nat :=
  match preprocess examples with
  | .error err => (.error err, 0)
  | .ok feats => (.ok (infer feats), 1)

/-! ## Trained-for-task probe (`_check_if_model_is_trained_for_task`,
source lines 67–72)

The probe receives arbitrary Python values, so a small dynamic value type
models the operand shapes it discriminates on. -/

/-- A Python value as seen by the structural probe. -/
inductive PyVal where
  | float (q : ℚ)
  | int (n : Int)
  | str (s : String)
  | list (xs : List PyVal)

/-- Python exceptions the probe can raise. -/
inductive PyError where
  | typeError
  | indexError
  deriving Repr, DecidableEq

/-- Python subscription `v[0]`: defined on lists and strings (a string
yields a one-character string), `IndexError` when empty, `TypeError` on
non-subscriptable values. -/
def pyFirst : PyVal → Except PyError PyVal
  | .list (x :: _) => .ok x
  | .list [] => .error .indexError
  | .str s =>
      match s.toList with
      | c :: _ => .ok (.str (String.mk [c]))
      | [] => .error .indexError
  | _ => .error .typeError

/-- Python `len(v)`: defined on lists and strings, `TypeError` otherwise. -/
def pyLen : PyVal → Except PyError Nat
  | .list xs => .ok xs.length
  | .str s => .ok s.length
  | _ => .error .typeError

/-- Python `isinstance(v, float)`. -/
def pyIsFloat : PyVal → Bool
  | .float _ => true
  | _ => false

/-- Python `isinstance(v, str)`. -/
def pyIsStr : PyVal → Bool
  | .str _ => true
  | _ => false

/-- The probe `_check_if_model_is_trained_for_task(model_predictions)`:
`sample_preds = model_predictions[0]`, then
`elements_are_pairs = len(sample_preds[0]) == 2`,
`leaves_are_floats = isinstance(sample_preds[0][0], float)`,
`elements_are_strings = isinstance(sample_preds[0], str)`, returning
`(elements_are_pairs and leaves_are_floats) or elements_are_strings`.
The statements run in order, so `len` on a non-sequence first element
raises before the string test is reached. -/
def checkIfModelIsTrainedForTask (model_predictions : List PyVal) :
    Except PyError Bool := do
  let sample_preds ← pyFirst (.list model_predictions)
  let sp0 ← pyFirst sample_preds
  let n ← pyLen sp0
  let elements_are_pairs := n == 2
  let sp00 ← pyFirst sp0
  let leaves_are_floats := pyIsFloat sp00
  let elements_are_strings := pyIsStr sp0
  .ok ((elements_are_pairs && leaves_are_floats) || elements_are_strings)

/-! ## General lemmas about `Except` and the loop helpers -/

theorem except_bind_ok {ε α β : Type} {x : Except ε α} {f : α → Except ε β} {b : β} :
    (x >>= f) = .ok b ↔ ∃ a, x = .ok a ∧ f a = .ok b := by
  cases x <;> simp [Bind.bind, Except.bind]

theorem except_not_ok_iff {ε α : Type} {x : Except ε α} :
    (∀ b, x ≠ .ok b) ↔ ∃ e, x = .error e := by
  cases x <;> simp

theorem mapExcept_ok_length {α β ε : Type} {f : α → Except ε β} :
    ∀ {l : List α} {r : List β}, mapExcept f l = .ok r → r.length = l.length := by
  intro l
  induction l with
  | nil =>
      intro r h
      simp only [mapExcept] at h
      cases h
      rfl
  | cons a t ih =>
      intro r h
      simp only [mapExcept] at h
      rw [except_bind_ok] at h
      obtain ⟨b, _, h⟩ := h
      rw [except_bind_ok] at h
      obtain ⟨r2, hr2, h⟩ := h
      cases h
      simp [ih hr2]

theorem mapExcept_ok_getD {α β ε : Type} {f : α → Except ε β} :
    ∀ {l : List α} {r : List β}, mapExcept f l = .ok r →
      ∀ i, i < l.length → ∀ dα dβ, f (l.getD i dα) = .ok (r.getD i dβ) := by
  intro l
  induction l with
  | nil => intro r _ i hi; exact absurd hi (Nat.not_lt_zero i)
  | cons a t ih =>
      intro r h i hi dα dβ
      simp only [mapExcept] at h
      rw [except_bind_ok] at h
      obtain ⟨b, hb, h⟩ := h
      rw [except_bind_ok] at h
      obtain ⟨r2, hr2, h⟩ := h
      cases h
      cases i with
      | zero => simpa using hb
      | succ j =>
          have hj : j < t.length := Nat.lt_of_succ_lt_succ hi
          simpa using ih hr2 j hj dα dβ

theorem mapExcept_not_ok_of_mem {α β ε : Type} {f : α → Except ε β} {a : α} :
    ∀ {l : List α}, a ∈ l → (∀ b, f a ≠ .ok b) → ∀ r, mapExcept f l ≠ .ok r := by
  intro l
  induction l with
  | nil => intro h; exact absurd h (List.not_mem_nil a)
  | cons c t ih =>
      intro hmem ha r h
      simp only [mapExcept] at h
      rw [except_bind_ok] at h
      obtain ⟨b, hb, h⟩ := h
      rw [except_bind_ok] at h
      obtain ⟨r2, hr2, _⟩ := h
      rcases List.mem_cons.mp hmem with hc | ht
      · exact ha b (hc ▸ hb)
      · exact ih ht ha r2 hr2

theorem mapExcept_ok_of_all {α β ε : Type} {f : α → Except ε β} :
    ∀ {l : List α}, (∀ a, a ∈ l → ∃ b, f a = .ok b) → ∃ r, mapExcept f l = .ok r := by
  intro l
  induction l with
  | nil => intro _; exact ⟨[], rfl⟩
  | cons a t ih =>
      intro hall
      obtain ⟨b, hb⟩ := hall a (List.mem_cons_self a t)
      obtain ⟨r, hr⟩ := ih (fun c hc => hall c (List.mem_cons_of_mem a hc))
      refine ⟨b :: r, ?_⟩
      simp only [mapExcept]
      rw [except_bind_ok]
      exact ⟨b, hb, by rw [except_bind_ok]; exact ⟨r, hr, rfl⟩⟩

theorem foldExcept_ok_of_all {σ α ε : Type} {f : σ → α → Except ε σ} :
    ∀ {l : List α}, (∀ s a, a ∈ l → ∃ s2, f s a = .ok s2) →
      ∀ s, ∃ s2, foldExcept f s l = .ok s2 := by
  intro l
  induction l with
  | nil => intro _ s; exact ⟨s, rfl⟩
  | cons a t ih =>
      intro hall s
      obtain ⟨s2, hs2⟩ := hall s a (List.mem_cons_self a t)
      obtain ⟨s3, hs3⟩ := ih (fun u c hc => hall u c (List.mem_cons_of_mem a hc)) s2
      refine ⟨s3, ?_⟩
      simp only [foldExcept]
      rw [except_bind_ok]
      exact ⟨s2, hs2, hs3⟩

theorem foldExcept_not_ok_of_mem {σ α ε : Type} {f : σ → α → Except ε σ} {a : α} :
    ∀ {l : List α}, a ∈ l → (∀ s s2, f s a ≠ .ok s2) →
      ∀ s r, foldExcept f s l ≠ .ok r := by
  intro l
  induction l with
  | nil => intro h; exact absurd h (List.not_mem_nil a)
  | cons c t ih =>
      intro hmem ha s r h
      simp only [foldExcept] at h
      rw [except_bind_ok] at h
      obtain ⟨s2, hs2, hrest⟩ := h
      rcases List.mem_cons.mp hmem with hc | ht
      · exact ha s s2 (hc ▸ hs2)
      · exact ih ht ha s2 r hrest

/-! ## Small list-access lemmas -/

theorem getD_lt {α : Type} {l : List α} {i : Nat} (d : α) (h : i < l.length) :
    l.getD i d = l[i] := by
  rw [List.getD_eq_getElem?_getD, List.getElem?_eq_getElem h]
  rfl

theorem getD_range {n i : Nat} (d : Nat) (h : i < n) :
    (List.range n).getD i d = i := by
  rw [getD_lt d (by simpa using h)]
  simp

theorem getD_map_range {β : Type} (g : Nat → β) {n k : Nat} (d : β) (hk : k < n) :
    ((List.range n).map g).getD k d = g k := by
  rw [getD_lt d (by simpa using hk)]
  simp

/-! ## Claim C7 -/

/-- C7: running the pipeline for the extractive-QA task under the
rule-based (spaCy) framework fails immediately with the typed
`FrameworkCannotHandleTask` condition naming both the framework and the
task, with zero inference calls made and no retry. -/
theorem C7_capability_mismatch {γ : Type} (taskPrettyName : String)
    (infer : List QAFeature → γ) (examples : List QAExample) :
    runPipeline (spacyPreprocessFn taskPrettyName) infer examples =
      (.error { framework := "spaCy", task := taskPrettyName }, 0) := rfl

/-! ## Claim C6 -/

/-- For `Option`-valued lookups that all succeed, `mapM` returns the list
of looked-up values. -/
theorem option_mapM_all_some {α β : Type} {f : α → Option β} (d : β) :
    ∀ {l : List α}, (∀ a, a ∈ l → (f a).isSome = true) →
      mapOption f l = some (l.map (fun a => (f a).getD d)) := by
  intro l
  induction l with
  | nil => intro _; rfl
  | cons a t ih =>
      intro hall
      have ha := hall a (List.mem_cons_self a t)
      obtain ⟨b, hb⟩ := Option.isSome_iff_exists.mp ha
      have ht := ih (fun c hc => hall c (List.mem_cons_of_mem a hc))
      simp [mapOption, hb, ht]

/-- An `Option`-valued `mapM` with a failing element returns `none`. -/
theorem option_mapM_none {α β : Type} {f : α → Option β} {a : α} :
    ∀ {l : List α}, a ∈ l → f a = none → mapOption f l = none := by
  intro l
  induction l with
  | nil => intro h; exact absurd h (List.not_mem_nil a)
  | cons c t ih =>
      intro hmem ha
      rcases List.mem_cons.mp hmem with hc | ht
      · simp [mapOption, hc ▸ ha]
      · simp only [mapOption]
        cases hfc : f c
        · rfl
        · simp [hfc, ih ht ha]

/-- C6 (amended): label canonicalization maps each raw label to
`label2id[raw.upper()]` when every uppercased label is present; otherwise
it fails with a `MissingLabel` error carrying the *uppercased* first
offending raw value (not the raw value itself) together with the known
mapping. -/
theorem C6_canonicalization (labels : List String) (m : List (String × Nat)) :
    ((∀ l, l ∈ labels → (lookup2id m (pyUpper l)).isSome = true) →
      createNumericalLabels labels m =
        .ok (labels.map (fun l => (lookup2id m (pyUpper l)).getD 0))) ∧
    (∀ raw, (labels.filter (fun l => (lookup2id m (pyUpper l)).isNone)).head? = some raw →
      createNumericalLabels labels m = .error { label := pyUpper raw, label2id := m }) := by
  constructor
  · intro hall
    unfold createNumericalLabels
    rw [option_mapM_all_some 0 hall]
  · intro raw hraw
    have hmem : raw ∈ labels.filter (fun l => (lookup2id m (pyUpper l)).isNone) :=
      List.mem_of_mem_head? hraw
    have hnone : (lookup2id m (pyUpper raw)).isNone := (List.mem_filter.mp hmem).2
    have hmemL : raw ∈ labels := (List.mem_filter.mp hmem).1
    unfold createNumericalLabels
    rw [option_mapM_none hmemL (Option.isNone_iff_eq_none.mp hnone)]
    have hhead :
        ((labels.filter (fun l => (lookup2id m (pyUpper l)).isNone)).map pyUpper).headD "" =
          pyUpper raw := by
      cases hf : labels.filter (fun l => (lookup2id m (pyUpper l)).isNone) with
      | nil => rw [hf] at hraw; cases hraw
      | cons x xs =>
          rw [hf] at hraw
          simp only [List.head?_cons, Option.some.injEq] at hraw
          simp [hraw]
    rw [hhead]

/-- C6 counterexample: for the raw label `"neg"` and a mapping without key
`"NEG"`, the raised error carries `"NEG"`, which differs from the offending
raw value `"neg"`. -/
theorem C6_counterexample :
    createNumericalLabels ["neg"] [("NEGATIVE", 0)] =
      .error { label := "NEG", label2id := [("NEGATIVE", 0)] } ∧ "NEG" ≠ "neg" := by
  exact ⟨rfl, by decide⟩

/-- C6 witness: both branches of the canonicalization theorem at concrete
inputs. -/
theorem C6_canonicalization_witness :
    createNumericalLabels ["neg"] [("NEG", 1)] =
      .ok (["neg"].map (fun l => (lookup2id [("NEG", 1)] (pyUpper l)).getD 0)) ∧
    createNumericalLabels ["bad"] [("NEG", 1)] =
      .error { label := pyUpper "bad", label2id := [("NEG", 1)] } :=
  ⟨(C6_canonicalization ["neg"] [("NEG", 1)]).1 (by decide),
   (C6_canonicalization ["bad"] [("NEG", 1)]).2 "bad" (by decide)⟩

/-! ## Claim C9 -/

/-- C9 counterexample: for a class-probability prediction (a vector of
floats), the trained-for-task check raises a `TypeError` (from `len` on a
float) instead of returning `false`. -/
theorem C9_counterexample :
    checkIfModelIsTrainedForTask
        [PyVal.list [PyVal.float (3/10), PyVal.float (7/10)]] =
      .error .typeError ∧
    checkIfModelIsTrainedForTask
        [PyVal.list [PyVal.float (3/10), PyVal.float (7/10)]] ≠ .ok false := by
  exact ⟨rfl, by intro h; cases h⟩

/-- C9 (amended): when the check returns a boolean, it returns `true` iff
the first prediction's first element is a string or a length-2 indexable
sequence whose first entry is a float; when that first element does not
support `len` (e.g., a float from a class-probability vector), the check
raises a `TypeError` instead of returning `false`. -/
theorem C9_probe (ps : List PyVal) (sp fe : PyVal)
    (h1 : pyFirst (.list ps) = .ok sp) (h2 : pyFirst sp = .ok fe) :
    (∀ b, checkIfModelIsTrainedForTask ps = .ok b →
      (b = true ↔ (pyIsStr fe = true ∨
        (pyLen fe = .ok 2 ∧ ∃ x, pyFirst fe = .ok x ∧ pyIsFloat x = true)))) ∧
    (pyLen fe = .error .typeError →
      checkIfModelIsTrainedForTask ps = .error .typeError) := by
  constructor
  · intro b hb
    unfold checkIfModelIsTrainedForTask at hb
    rw [except_bind_ok] at hb
    obtain ⟨sp2, hsp2, hb⟩ := hb
    rw [h1] at hsp2
    cases hsp2
    rw [except_bind_ok] at hb
    obtain ⟨fe2, hfe2, hb⟩ := hb
    rw [h2] at hfe2
    cases hfe2
    rw [except_bind_ok] at hb
    obtain ⟨n, hn, hb⟩ := hb
    rw [except_bind_ok] at hb
    obtain ⟨x, hx, hb⟩ := hb
    cases hb
    constructor
    · intro htrue
      rcases Bool.or_eq_true_iff.mp htrue with hpair | hstr
      · rcases Bool.and_eq_true_iff.mp hpair with ⟨hn2, hfl⟩
        have hn2 : n = 2 := beq_iff_eq.mp hn2
        rw [hn2] at hn
        exact Or.inr ⟨hn, x, hx, hfl⟩
      · exact Or.inl hstr
    · intro hcases
      rcases hcases with hstr | ⟨hlen, y, hy, hfl⟩
      · simp [hstr]
      · have hn2 : n = 2 := by
          rw [hn] at hlen
          exact Except.ok.inj hlen
        have hxy : x = y := by
          rw [hx] at hy
          exact Except.ok.inj hy
        subst hn2
        rw [hxy]
        simp [hfl]
  · intro hlen
    unfold checkIfModelIsTrainedForTask
    simp only [h1, h2, hlen, bind, Except.bind]

/-- C9 witness: a QA-shaped prediction (per-position `(float, float)`
pairs) makes the check return `true`, and the amended theorem's reading of
that result holds at this input. -/
theorem C9_probe_witness :
    pyIsStr (PyVal.list [PyVal.float 1, PyVal.float 2]) = true ∨
      (pyLen (PyVal.list [PyVal.float 1, PyVal.float 2]) = .ok 2 ∧
        ∃ x, pyFirst (PyVal.list [PyVal.float 1, PyVal.float 2]) = .ok x ∧
          pyIsFloat x = true) :=
  ((C9_probe [PyVal.list [PyVal.list [PyVal.float 1, PyVal.float 2]]]
      (PyVal.list [PyVal.list [PyVal.float 1, PyVal.float 2]])
      (PyVal.list [PyVal.float 1, PyVal.float 2]) rfl rfl).1 true rfl).mp rfl

/-! ## Claim C4 -/

/-- C4: for every emitted window and every token position of its offset
mapping, the rewritten entry is the SENTINEL `(-1, -1)` exactly when the
position's sequence id differs from the context index `1` (question,
special or padding tokens), and is the tokenizer's original character span
unchanged when the position belongs to the context segment. -/
theorem C4_offset_rewrite (ids : List String) (tok : TokenizedBatch) (i k : Nat)
    (hi : i < tok.input_ids.length)
    (hk : k < (tok.offset_mapping.getD i []).length) :
    (((tok.sequence_ids.getD i []).getD k none ≠ some 1 →
        ((prepare_test_examples ids tok).getD i default).offset_mapping.getD k (0, 0) =
          (-1, -1)) ∧
     ((tok.sequence_ids.getD i []).getD k none = some 1 →
        ((prepare_test_examples ids tok).getD i default).offset_mapping.getD k (0, 0) =
          (tok.offset_mapping.getD i []).getD k (-1, -1))) := by
  have hfeat :
      (prepare_test_examples ids tok).getD i default =
        { id := ids.getD (tok.overflow_to_sample_mapping.getD i 0) "",
          input_ids := tok.input_ids.getD i [],
          offset_mapping :=
            rewriteOffsets (tok.sequence_ids.getD i []) (tok.offset_mapping.getD i []) } := by
    unfold prepare_test_examples
    exact getD_map_range _ default hi
  have hentry :
      ((prepare_test_examples ids tok).getD i default).offset_mapping.getD k (0, 0) =
        (if (tok.sequence_ids.getD i []).getD k none == some 1
          then (tok.offset_mapping.getD i []).getD k (-1, -1) else (-1, -1)) := by
    rw [hfeat]
    unfold rewriteOffsets
    exact getD_map_range _ (0, 0) hk
  constructor
  · intro hne
    rw [hentry]
    simp only [beq_iff_eq]
    rw [if_neg hne]
  · intro heq
    rw [hentry]
    simp only [beq_iff_eq]
    rw [if_pos heq]

/-- C4 witness: a two-token window whose first position is a question token
and whose second is a context token. -/
theorem C4_offset_rewrite_witness :
    ((prepare_test_examples ["e1"]
        { input_ids := [[1, 2]], offset_mapping := [[(0, 2), (3, 7)]],
          sequence_ids := [[some 0, some 1]],
          overflow_to_sample_mapping := [0] }).getD 0 default).offset_mapping.getD 1 (0, 0) =
      ([((0 : Int), (2 : Int)), ((3 : Int), (7 : Int))] : List (Int × Int)).getD 1 (-1, -1) :=
  (C4_offset_rewrite ["e1"]
    { input_ids := [[1, 2]], offset_mapping := [[(0, 2), (3, 7)]],
      sequence_ids := [[some 0, some 1]], overflow_to_sample_mapping := [0] }
    0 1 (by decide) (by decide)).2 (by decide)

/-! ## Decomposition lemmas for the span resolver -/

theorem processFeature_ok {A B : List (List ℚ)} {cls : Int} {feats : List QAFeature}
    {ctx : String} {acc : ℚ × List Candidate} {fi : Nat} {r : ℚ × List Candidate}
    (h : processFeature A B cls feats ctx acc fi = .ok r) :
    ∃ sl el ns, getRow A fi = .ok sl ∧ getRow B fi = .ok el ∧
      nullScore A B cls feats fi = .ok ns ∧
      r = (max acc.1 ns,
        acc.2 ++ candidatesFor sl el (feats.getD fi default).offset_mapping ctx
          (topIndexes sl 20) (topIndexes el 20)) := by
  unfold processFeature at h
  rw [except_bind_ok] at h
  obtain ⟨sl, hsl, h⟩ := h
  rw [except_bind_ok] at h
  obtain ⟨el, hel, h⟩ := h
  rw [except_bind_ok] at h
  obtain ⟨ns, hns, h⟩ := h
  cases h
  refine ⟨sl, el, ns, hsl, hel, hns, ?_⟩
  have hmax : (if acc.1 < ns then ns else acc.1) = max acc.1 ns := by
    rcases lt_or_ge acc.1 ns with hlt | hge
    · rw [if_pos hlt, max_eq_right (le_of_lt hlt)]
    · rw [if_neg (not_lt.mpr hge), max_eq_left hge]
  rw [hmax]

theorem processExample_ok {A B : List (List ℚ)} {cls : Int} {feats : List QAFeature}
    {idxs : List Nat} {ex : QAExample} {p : Prediction}
    (h : processExample A B cls feats idxs ex = .ok p) :
    ∃ st, exampleState A B cls feats ex.context idxs = .ok st ∧
      p = { id := ex.id,
            prediction_text :=
              if st.1 < (bestCandidate st.2).score then (bestCandidate st.2).text else "",
            no_answer_probability := 0 } := by
  unfold processExample at h
  rw [except_bind_ok] at h
  obtain ⟨st, hst, h⟩ := h
  cases h
  exact ⟨st, hst, rfl⟩

/-- The initial value is a lower bound of a left `max` fold. -/
theorem foldl_max_init_le : ∀ (l : List ℚ) (b : ℚ), b ≤ l.foldl max b := by
  intro l
  induction l with
  | nil => intro b; exact le_refl b
  | cons x t ih => intro b; exact le_trans (le_max_left b x) (ih (max b x))

/-- The running-score component of the feature fold is the `max` fold of
the features' null scores over the initial value. -/
theorem foldExcept_nullScores {A B : List (List ℚ)} {cls : Int}
    {feats : List QAFeature} {ctx : String} :
    ∀ {idxs : List Nat} {acc : ℚ × List Candidate} {m : ℚ} {va : List Candidate},
      foldExcept (processFeature A B cls feats ctx) acc idxs = .ok (m, va) →
      ∃ ns : List ℚ, mapExcept (nullScore A B cls feats) idxs = .ok ns ∧
        m = ns.foldl max acc.1 := by
  intro idxs
  induction idxs with
  | nil =>
      intro acc m va h
      simp only [foldExcept] at h
      cases h
      exact ⟨[], rfl, rfl⟩
  | cons fi t ih =>
      intro acc m va h
      simp only [foldExcept] at h
      rw [except_bind_ok] at h
      obtain ⟨s2, hs2, hrest⟩ := h
      obtain ⟨sl, el, ns, hsl, hel, hns, hs2eq⟩ := processFeature_ok hs2
      subst hs2eq
      obtain ⟨nss, hnss, hm⟩ := ih hrest
      refine ⟨ns :: nss, ?_, ?_⟩
      · simp only [mapExcept]
        rw [except_bind_ok]
        exact ⟨ns, hns, by rw [except_bind_ok]; exact ⟨nss, hnss, rfl⟩⟩
      · simpa using hm

/-! ## Claim C3 -/

/-- C3: when the span resolver's per-example feature loop completes, the
running null-answer reference score equals the `max` fold, started at
`0.0`, of the features' null scores `start_logits[cls] + end_logits[cls]`
(so it is the maximum of `0` and the individual null scores), and in
particular it is never negative. -/
theorem C3_reference_score (A B : List (List ℚ)) (cls : Int) (feats : List QAFeature)
    (ctx : String) (idxs : List Nat) (m : ℚ) (va : List Candidate)
    (h : exampleState A B cls feats ctx idxs = .ok (m, va)) :
    ∃ ns : List ℚ, mapExcept (nullScore A B cls feats) idxs = .ok ns ∧
      m = ns.foldl max 0 ∧ 0 ≤ m := by
  obtain ⟨ns, hns, hm⟩ := foldExcept_nullScores h
  exact ⟨ns, hns, hm, hm ▸ foldl_max_init_le ns 0⟩

/-- C3 witness: the theorem applied to an example with no features, whose
reference score is the initial `0.0`. -/
theorem C3_reference_score_witness :
    ∃ ns : List ℚ, mapExcept (nullScore [] [] 101 []) [] = .ok ns ∧
      (0 : ℚ) = ns.foldl max 0 ∧ (0 : ℚ) ≤ 0 :=
  C3_reference_score [] [] 101 [] "ctx" [] 0 [] rfl

/-! ## Claim C2 -/

/-- C2: every emitted prediction has `no_answer_probability = 0.0`, and its
`prediction_text` is the best candidate's text exactly when that
candidate's score strictly exceeds the running reference score, and the
empty string otherwise — in particular when no candidate survived
filtering, `bestCandidate [] = ⟨0, ""⟩` is the fallback and the emitted
text is empty. -/
theorem C2_null_answer_decision (A B : List (List ℚ)) (cls : Int)
    (feats : List QAFeature) (idxs : List Nat) (ex : QAExample) (p : Prediction)
    (h : processExample A B cls feats idxs ex = .ok p) :
    p.no_answer_probability = 0 ∧ p.id = ex.id ∧
    ∀ m va, exampleState A B cls feats ex.context idxs = .ok (m, va) →
      ((bestCandidate va).score ≤ m → p.prediction_text = "") ∧
      (m < (bestCandidate va).score → p.prediction_text = (bestCandidate va).text) := by
  obtain ⟨st, hst, hp⟩ := processExample_ok h
  subst hp
  refine ⟨rfl, rfl, ?_⟩
  intro m va hmv
  rw [hst] at hmv
  have hstm : st = (m, va) := Except.ok.inj hmv
  subst hstm
  constructor
  · intro hle
    exact if_neg (not_lt.mpr hle)
  · intro hlt
    exact if_pos hlt

/-- C2 witness: the decision at an example with no features. -/
theorem C2_null_answer_decision_witness :
    (Prediction.mk "e1" "" 0).no_answer_probability = 0 ∧
    (Prediction.mk "e1" "" 0).id = (QAExample.mk "e1" "q" "ctx" [] []).id ∧
    ∀ m va, exampleState [] [] 101 [] (QAExample.mk "e1" "q" "ctx" [] []).context [] =
        .ok (m, va) →
      ((bestCandidate va).score ≤ m → (Prediction.mk "e1" "" 0).prediction_text = "") ∧
      (m < (bestCandidate va).score →
        (Prediction.mk "e1" "" 0).prediction_text = (bestCandidate va).text) :=
  C2_null_answer_decision [] [] 101 [] [] (QAExample.mk "e1" "q" "ctx" [] [])
    (Prediction.mk "e1" "" 0) rfl

/-! ## Claim C5 -/

/-- Forward construction of a successful `Except` bind. -/
theorem except_bind_ok_of {ε α β : Type} {x : Except ε α} {f : α → Except ε β}
    {a : α} {b : β} (hx : x = .ok a) (hf : f a = .ok b) : (x >>= f) = .ok b := by
  subst hx
  exact hf

/-- C5: whenever QA postprocessing succeeds, the prediction list and the
label list both have one entry per dataset example, and at every position
the prediction's and the label's `id` equal the example's `id` (so the two
outputs cover the same id set, in dataset order). -/
theorem C5_id_alignment (P : List (List (ℚ × ℚ))) (ds : List QAExample)
    (prep : List QAFeature) (cls : Int) (preds : List Prediction)
    (h : postprocess_predictions P ds prep cls = .ok preds) :
    preds.length = ds.length ∧ (postprocess_labels ds).length = ds.length ∧
    ∀ i, i < ds.length →
      (preds.getD i default).id = (ds.getD i default).id ∧
      ((postprocess_labels ds).getD i default).id = (ds.getD i default).id := by
  unfold postprocess_predictions at h
  rw [except_bind_ok] at h
  obtain ⟨A, hA, hmap⟩ := h
  have hlen : preds.length = ds.length := by
    simpa using mapExcept_ok_length hmap
  refine ⟨hlen, by simp [postprocess_labels], ?_⟩
  intro i hi
  constructor
  · have hpt := mapExcept_ok_getD hmap i (by simpa using hi) 0 default
    rw [getD_range 0 hi] at hpt
    obtain ⟨st, _, hp⟩ := processExample_ok hpt
    rw [hp]
  · unfold postprocess_labels
    rw [getD_lt default (by simpa using hi), getD_lt default hi]
    simp

/-- C5 witness: a one-example run with no features. -/
theorem C5_id_alignment_witness :
    [Prediction.mk "e1" "" 0].length = [QAExample.mk "e1" "q" "ctx" [] []].length ∧
    (postprocess_labels [QAExample.mk "e1" "q" "ctx" [] []]).length =
      [QAExample.mk "e1" "q" "ctx" [] []].length ∧
    ∀ i, i < [QAExample.mk "e1" "q" "ctx" [] []].length →
      (([Prediction.mk "e1" "" 0]).getD i default).id =
        (([QAExample.mk "e1" "q" "ctx" [] []]).getD i default).id ∧
      ((postprocess_labels [QAExample.mk "e1" "q" "ctx" [] []]).getD i default).id =
        (([QAExample.mk "e1" "q" "ctx" [] []]).getD i default).id :=
  C5_id_alignment [] [QAExample.mk "e1" "q" "ctx" [] []] [] 101
    [Prediction.mk "e1" "" 0] rfl

/-! ## Claim C8 -/

/-- A successful `idToIndex` lookup returns an in-range position holding
the looked-up id (the last such position). -/
theorem idToIndex_some {ids : List String} {id : String} {e : Nat}
    (h : idToIndex ids id = some e) : e < ids.length ∧ ids.getD e "" = id := by
  have hmem : e ∈ (List.range ids.length).filter (fun i => ids.getD i "" == id) :=
    List.mem_of_mem_getLast? (Option.mem_def.mpr h)
  have hsplit := List.mem_filter.mp hmem
  exact ⟨List.mem_range.mp hsplit.1, by simpa using hsplit.2⟩

/-- Lookup `idToIndex` succeeds on any id present in the list. -/
theorem idToIndex_some_of_mem {ids : List String} {id : String}
    (h : id ∈ ids) : ∃ e, idToIndex ids id = some e := by
  obtain ⟨i, hi, hgi⟩ := List.mem_iff_getElem.mp h
  have hmem : i ∈ (List.range ids.length).filter (fun i => ids.getD i "" == id) := by
    rw [List.mem_filter]
    exact ⟨List.mem_range.mpr hi, by rw [getD_lt "" hi]; simpa using hgi⟩
  cases hlast : ((List.range ids.length).filter (fun i => ids.getD i "" == id)).getLast? with
  | none =>
      rw [List.getLast?_eq_none_iff] at hlast
      rw [hlast] at hmem
      cases hmem
  | some e => exact ⟨e, hlast⟩

/-- A successful `findIdx?` exhibits an element satisfying the test. -/
theorem findIdx?_some_mem {p : Int → Bool} :
    ∀ {xs : List Int} {s j : Nat}, xs.findIdx? p s = some j → ∃ x, x ∈ xs ∧ p x = true := by
  intro xs
  induction xs with
  | nil => intro s j h; cases h
  | cons a t ih =>
      intro s j h
      rw [List.findIdx?_cons] at h
      by_cases hp : p a
      · exact ⟨a, List.mem_cons_self a t, hp⟩
      · rw [if_neg hp] at h
        obtain ⟨x, hx, hpx⟩ := ih h
        exact ⟨x, List.mem_cons_of_mem a hx, hpx⟩

/-- Membership in an example's feature-index list, unfolded. -/
theorem mem_indicesFor {A : List Nat} {e fi : Nat} :
    fi ∈ indicesFor A e ↔ fi < A.length ∧ A.getD fi 0 = e := by
  unfold indicesFor
  rw [List.mem_filter, List.mem_range]
  simp

/-- C8: if any prepared feature's token ids do not contain the designated
classifier-token id (and every feature id is known), the span resolver
raises an exception — the run aborts rather than skipping the feature or
recovering. -/
theorem C8_missing_cls_fatal (P : List (List (ℚ × ℚ))) (ds : List QAExample)
    (prep : List QAFeature) (cls : Int) (fi : Nat)
    (hfi : fi < prep.length)
    (hids : ∀ f, f ∈ prep → f.id ∈ ds.map QAExample.id)
    (hcls : cls ∉ (prep.getD fi default).input_ids) :
    ∃ err, postprocess_predictions P ds prep cls = .error err := by
  rw [← except_not_ok_iff]
  intro preds h
  unfold postprocess_predictions at h
  rw [except_bind_ok] at h
  obtain ⟨A, hA, hmap⟩ := h
  have hmemf : prep.getD fi default ∈ prep := by
    rw [getD_lt default hfi]
    exact List.getElem_mem hfi
  obtain ⟨e0, he0⟩ := idToIndex_some_of_mem (hids _ hmemf)
  have hptA := mapExcept_ok_getD hA fi hfi default 0
  rw [he0] at hptA
  have hAfi : A.getD fi 0 = e0 := (Except.ok.inj hptA).symm
  have hAlen : A.length = prep.length := mapExcept_ok_length hA
  have he0lt : e0 < ds.length := by
    simpa using (idToIndex_some he0).1
  have hfiIn : fi ∈ indicesFor A e0 :=
    mem_indicesFor.mpr ⟨hAlen ▸ hfi, hAfi⟩
  have hfail : ∀ acc s2,
      processFeature (P.map (fun row => row.map Prod.fst))
        (P.map (fun row => row.map Prod.snd)) cls prep
        (ds.getD e0 default).context acc fi ≠ .ok s2 := by
    intro acc s2 hok
    obtain ⟨sl, el, ns, _, _, hns, _⟩ := processFeature_ok hok
    unfold nullScore at hns
    rw [except_bind_ok] at hns
    obtain ⟨sl2, _, hns⟩ := hns
    rw [except_bind_ok] at hns
    obtain ⟨el2, _, hns⟩ := hns
    rw [except_bind_ok] at hns
    obtain ⟨ci, hci, _⟩ := hns
    unfold pyListIndex at hci
    cases hfind : (prep.getD fi default).input_ids.findIdx? (fun y => y == cls) with
    | none => rw [hfind] at hci; cases hci
    | some j =>
        obtain ⟨x, hx, hpx⟩ := findIdx?_some_mem hfind
        have hxc : x = cls := by simpa using hpx
        exact hcls (hxc ▸ hx)
  have hexfail : ∀ b,
      processExample (P.map (fun row => row.map Prod.fst))
        (P.map (fun row => row.map Prod.snd)) cls prep (indicesFor A e0)
        (ds.getD e0 default) ≠ .ok b := by
    intro b hok
    obtain ⟨st, hst, _⟩ := processExample_ok hok
    exact foldExcept_not_ok_of_mem hfiIn hfail _ _ hst
  exact mapExcept_not_ok_of_mem (List.mem_range.mpr he0lt) hexfail preds hmap

/-- C8 witness: a single feature without the classifier token id makes the
whole postprocessing fail. -/
theorem C8_missing_cls_fatal_witness :
    ∃ err, postprocess_predictions []
        [QAExample.mk "e1" "q" "ctx" [] []]
        [QAFeature.mk "e1" [7, 8] [(0, 1)]] 101 = .error err :=
  C8_missing_cls_fatal [] [QAExample.mk "e1" "q" "ctx" [] []]
    [QAFeature.mk "e1" [7, 8] [(0, 1)]] 101 0 (by decide) (by decide) (by decide)

/-! ## Claim C10 -/

/-- Row access into a mapped logit matrix succeeds in range. -/
theorem getRow_map_ok {P : List (List (ℚ × ℚ))} {g : List (ℚ × ℚ) → List ℚ} {fi : Nat}
    (h : fi < P.length) : getRow (P.map g) fi = .ok (g (P.getD fi [])) := by
  unfold getRow
  rw [dif_pos (by simpa using h), getD_lt [] h]
  simp

/-- Entry access into a logit row succeeds in range. -/
theorem getEntry_ok {xs : List ℚ} {i : Nat} (h : i < xs.length) :
    getEntry xs i = .ok (xs.getD i 0) := by
  unfold getEntry
  rw [dif_pos h, getD_lt 0 h]

/-- A feature whose classifier-token position is covered by its logit rows
has a null score. -/
theorem nullScore_ok_of_wf {P : List (List (ℚ × ℚ))} {prep : List QAFeature}
    {cls : Int} {fi : Nat}
    (hfi : fi < prep.length) (hrows : prep.length ≤ P.length)
    (hcls : ∃ ci, pyListIndex (prep.getD fi default).input_ids cls = .ok ci ∧
      ci < (P.getD fi []).length) :
    ∃ v, nullScore (P.map (fun row => row.map Prod.fst))
        (P.map (fun row => row.map Prod.snd)) cls prep fi = .ok v := by
  obtain ⟨ci, hci, hcilt⟩ := hcls
  have hfP : fi < P.length := lt_of_lt_of_le hfi hrows
  have hS := getRow_map_ok (g := fun row => row.map Prod.fst) hfP
  have hE := getRow_map_ok (g := fun row => row.map Prod.snd) hfP
  have hlenS : ci < ((P.getD fi []).map Prod.fst).length := by simpa using hcilt
  have hlenE : ci < ((P.getD fi []).map Prod.snd).length := by simpa using hcilt
  exact ⟨_,
    except_bind_ok_of hS (except_bind_ok_of hE (except_bind_ok_of hci
      (except_bind_ok_of (getEntry_ok hlenS)
        (except_bind_ok_of (getEntry_ok hlenE) rfl))))⟩

/-- A well-formed feature processes successfully from any accumulator. -/
theorem processFeature_ok_of_wf {P : List (List (ℚ × ℚ))} {prep : List QAFeature}
    {cls : Int} {ctx : String} {fi : Nat} {acc : ℚ × List Candidate}
    (hfi : fi < prep.length) (hrows : prep.length ≤ P.length)
    (hcls : ∃ ci, pyListIndex (prep.getD fi default).input_ids cls = .ok ci ∧
      ci < (P.getD fi []).length) :
    ∃ r, processFeature (P.map (fun row => row.map Prod.fst))
        (P.map (fun row => row.map Prod.snd)) cls prep ctx acc fi = .ok r := by
  obtain ⟨v, hv⟩ := nullScore_ok_of_wf hfi hrows hcls
  have hfP : fi < P.length := lt_of_lt_of_le hfi hrows
  have hS := getRow_map_ok (g := fun row => row.map Prod.fst) hfP
  have hE := getRow_map_ok (g := fun row => row.map Prod.snd) hfP
  exact ⟨_, except_bind_ok_of hS (except_bind_ok_of hE (except_bind_ok_of hv rfl))⟩

/-- C10: an example owning zero features does not make postprocessing fail:
under well-formedness of the remaining features, the run succeeds, emits
one prediction per dataset example, and that example receives the empty
prediction with `no_answer_probability = 0.0`. -/
theorem C10_zero_feature_example (P : List (List (ℚ × ℚ))) (ds : List QAExample)
    (prep : List QAFeature) (cls : Int) (i : Nat)
    (hi : i < ds.length)
    (hids : ∀ f, f ∈ prep → f.id ∈ ds.map QAExample.id)
    (hrows : prep.length ≤ P.length)
    (hcls : ∀ j, j < prep.length →
      ∃ ci, pyListIndex (prep.getD j default).input_ids cls = .ok ci ∧
        ci < (P.getD j []).length)
    (hnone : ∀ f, f ∈ prep → f.id ≠ (ds.getD i default).id) :
    ∃ preds, postprocess_predictions P ds prep cls = .ok preds ∧
      preds.length = ds.length ∧
      preds.getD i default =
        { id := (ds.getD i default).id, prediction_text := "",
          no_answer_probability := 0 } := by
  have hAex : ∃ A, featureAssignments (ds.map (fun ex => ex.id)) prep = .ok A := by
    apply mapExcept_ok_of_all
    intro f hf
    obtain ⟨e, he⟩ := idToIndex_some_of_mem
      (show f.id ∈ ds.map (fun ex => ex.id) from by simpa using hids f hf)
    exact ⟨e, by rw [he]⟩
  obtain ⟨A, hA⟩ := hAex
  have hAlen : A.length = prep.length := mapExcept_ok_length hA
  have hallok : ∀ e, e ∈ List.range ds.length →
      ∃ p, processExample (P.map (fun row => row.map Prod.fst))
        (P.map (fun row => row.map Prod.snd)) cls prep (indicesFor A e)
        (ds.getD e default) = .ok p := by
    intro e _
    have hfold : ∀ s fi, fi ∈ indicesFor A e →
        ∃ s2, processFeature (P.map (fun row => row.map Prod.fst))
          (P.map (fun row => row.map Prod.snd)) cls prep
          ((ds.getD e default).context) s fi = .ok s2 := by
      intro s fi hfiIn
      have hfi : fi < prep.length := hAlen ▸ (mem_indicesFor.mp hfiIn).1
      exact processFeature_ok_of_wf hfi hrows (hcls fi hfi)
    obtain ⟨st, hst⟩ := foldExcept_ok_of_all hfold (0, [])
    exact ⟨_, except_bind_ok_of hst rfl⟩
  obtain ⟨preds, hmap⟩ := mapExcept_ok_of_all hallok
  have hpp : postprocess_predictions P ds prep cls = .ok preds :=
    except_bind_ok_of hA hmap
  have hlen : preds.length = ds.length := by simpa using mapExcept_ok_length hmap
  have hempty : indicesFor A i = [] := by
    unfold indicesFor
    rw [List.filter_eq_nil_iff]
    intro j hj hbeq
    rw [List.mem_range] at hj
    have hji : A.getD j 0 = i := by simpa using hbeq
    have hjp : j < prep.length := hAlen ▸ hj
    have hpt := mapExcept_ok_getD hA j hjp default 0
    have hmemj : prep.getD j default ∈ prep := by
      rw [getD_lt default hjp]
      exact List.getElem_mem hjp
    obtain ⟨ej, hej⟩ := idToIndex_some_of_mem (hids _ hmemj)
    rw [hej] at hpt
    have hje : A.getD j 0 = ej := (Except.ok.inj hpt).symm
    have heq : ej = i := by rw [hje] at hji; exact hji
    rw [heq] at hej
    have hid := (idToIndex_some hej).2
    have hmapget : (ds.map QAExample.id).getD i "" = (ds.getD i default).id := by
      rw [getD_lt "" (by simpa using hi), getD_lt default hi]
      simp
    rw [hmapget] at hid
    exact hnone _ hmemj hid.symm
  have hpt := mapExcept_ok_getD hmap i (by simpa using hi) 0 default
  rw [getD_range 0 hi, hempty] at hpt
  have hval : processExample (P.map (fun row => row.map Prod.fst))
      (P.map (fun row => row.map Prod.snd)) cls prep []
      (ds.getD i default) =
      .ok { id := (ds.getD i default).id, prediction_text := "",
            no_answer_probability := 0 } := rfl
  rw [hval] at hpt
  exact ⟨preds, hpp, hlen, (Except.ok.inj hpt).symm⟩

/-- C10 witness: a dataset example with no prepared features at all. -/
theorem C10_zero_feature_example_witness :
    ∃ preds, postprocess_predictions [] [QAExample.mk "e1" "q" "ctx" [] []] [] 101 =
        .ok preds ∧
      preds.length = [QAExample.mk "e1" "q" "ctx" [] []].length ∧
      preds.getD 0 default =
        { id := ([QAExample.mk "e1" "q" "ctx" [] []].getD 0 default).id,
          prediction_text := "", no_answer_probability := 0 } :=
  C10_zero_feature_example [] [QAExample.mk "e1" "q" "ctx" [] []] [] 101 0
    (by decide) (by decide) (by decide)
    (by intro j hj; cases hj) (by decide)

/-! ## Claim C1 -/

set_option maxHeartbeats 1600000 in
/-- C1: the SENTINEL rejection is inert.  In the source the test
`offset_mapping[start_index] == -1` compares a two-element offset entry to
the integer `-1`, which in Python is always false, so `(start, end)` pairs
whose offsets are the SENTINEL `(-1, -1)` are *not* rejected and do record
candidates.  At the input below, position 2 is the only context token
(`"Paris"`, offsets `(0, 5)`), positions 0 and 1 carry the SENTINEL, and
the top logits sit at SENTINEL position 1: the filter accepts the pair
`(1, 1)`, records the SENTINEL candidate (score `20`, text `""` via
negative-index slicing), and the run emits the empty prediction even
though, had SENTINEL pairs been rejected, the surviving candidate `(2, 2)`
(score `4`, text `"Paris"`, null score `0`) would have been emitted. -/
theorem C1_sentinel_filter_inert :
    outOfScope [((-1 : Int), (-1 : Int)), ((-1 : Int), (-1 : Int)), ((0 : Int), (5 : Int))]
        1 1 = false ∧
    candidatesForStart [(0 : ℚ), 10, 2] [(0 : ℚ), 10, 2]
        [((-1 : Int), (-1 : Int)), ((-1 : Int), (-1 : Int)), ((0 : Int), (5 : Int))]
        "Paris" 1 [1] = [{ score := 20, text := "" }] ∧
    postprocess_predictions [[((0 : ℚ), (0 : ℚ)), ((10 : ℚ), (10 : ℚ)), ((2 : ℚ), (2 : ℚ))]]
        [{ id := "ex1", question := "q", context := "Paris",
           answersText := ["Paris"], answersStart := [0] }]
        [{ id := "ex1", input_ids := [101, 7, 8],
           offset_mapping := [(-1, -1), (-1, -1), (0, 5)] }] 101 =
      .ok [{ id := "ex1", prediction_text := "", no_answer_probability := 0 }] := by
  refine ⟨rfl, ?_, ?_⟩
  · norm_num [candidatesForStart, outOfScope, badLength, pyPairEqInt, pySlice,
      List.filterMap_cons, List.filterMap_nil, List.asString]
  · norm_num [postprocess_predictions, featureAssignments, idToIndex, mapExcept,
      processExample, exampleState, foldExcept, processFeature, nullScore, getRow,
      getEntry, pyListIndex, indicesFor, topIndexes, argsort, argInsert, candidatesFor,
      candidatesForStart, outOfScope, badLength, pyPairEqInt, pySlice, bestCandidate,
      List.range_succ, List.findIdx?, Bind.bind, Except.bind, List.filter, List.flatMap,
      List.filterMap, List.asString]

end AiaiEval
